import Mathlib

/-!
# roombooking-backend: the request handlers of `src/index.js`

A shallow embedding of the Express handlers of `src/index.js` as pure functions
`Env → Store → Request → Result`.

* `Store` is the content of the three MongoDB collections (User, Place, Booking).
* `Env` holds the collaborators the handlers call but the file does not define:
  `jsonwebtoken` (sign / verify under `jwtSecret`), `bcryptjs` (hashSync /
  compareSync under `bcryptSalt`) and the schema validation of the three
  Mongoose models.
* `Result` is what one request leaves behind: the response (or the fact that the
  handler threw without answering), the store afterwards and the list of
  collection operations that were issued.

The database is taken to be reachable: a collection operation fails only through
a cast or validation error. Values are stored as they were submitted.
-/

namespace RoomBooking

/-! ## Values, request bodies -/

/-- An ObjectId of MongoDB. -/
abbrev ObjectId := Nat

/-- The JSON values a request body can bind to a key. `oid n` is the 24 digit hex
string that denotes the ObjectId `n`; it is kept apart from the other strings so
that ids stay abstract. `undefined` is what destructuring yields for a missing key. -/
inductive JVal where
  | undefined
  | null
  | bool (b : Bool)
  | num (n : Int)
  | str (s : String)
  | oid (n : ObjectId)
  | arr (xs : List String)
  deriving DecidableEq, Repr

/-- A JavaScript object literal / parsed JSON body: keys bound to values, each key
bound once. -/
abbrev Fields := List (String × JVal)

/-- Reading `o.k` (or destructuring `k` out of `o`): `undefined` when the key is missing. -/
def Fields.get (o : Fields) (k : String) : JVal :=
  match o.lookup k with
  | some v => v
  | none => .undefined

/-- Whether the object has the key at all. -/
def Fields.has (o : Fields) (k : String) : Bool :=
  (o.lookup k).isSome

/-- The request as the handlers see it: `req.cookies.token`, `req.body`, `req.params.id`. -/
structure Request where
  token : Option String
  body : Fields
  paramId : JVal
  deriving DecidableEq, Repr

/-! ## Documents and collections -/

/-- A document of the User collection. `password` holds the bcrypt hash. -/
structure UserDoc where
  _id : ObjectId
  name : JVal
  email : JVal
  password : String
  deriving DecidableEq, Repr

/-- A document of the Place collection. A path that was never set is `undefined`
(`none` for the owner reference). -/
structure PlaceDoc where
  _id : ObjectId
  owner : Option ObjectId
  title : JVal
  address : JVal
  photos : JVal
  description : JVal
  perks : JVal
  extraInfo : JVal
  checkIn : JVal
  checkOut : JVal
  maxGuests : JVal
  price : JVal
  deriving DecidableEq, Repr

/-- A document of the Booking collection. -/
structure BookingDoc where
  _id : ObjectId
  place : JVal
  user : Option ObjectId
  checkIn : JVal
  checkOut : JVal
  numberOfGuests : JVal
  name : JVal
  phone : JVal
  price : JVal
  deriving DecidableEq, Repr

/-- A booking after `.populate('place')`: the booking with its place reference
resolved to the Place document (`none` when no such place is stored). -/
structure PopulatedBooking where
  booking : BookingDoc
  placeDoc : Option PlaceDoc
  deriving DecidableEq, Repr

/-- The three collections. -/
structure Store where
  users : List UserDoc
  places : List PlaceDoc
  bookings : List BookingDoc
  deriving DecidableEq, Repr

/-- MongoDB keeps `_id` unique inside a collection. -/
def Store.UniqueIds (s : Store) : Prop :=
  (s.users.map (·._id)).Nodup ∧ (s.places.map (·._id)).Nodup ∧ (s.bookings.map (·._id)).Nodup

/-- The operations a handler issues against the collections. -/
inductive DbOp where
  | userCreate
  | userFindOne
  | userFindById
  | placeCreate
  | placeFind
  | placeFindById
  | placeSave
  | bookingCreate
  | bookingFind
  | bookingPopulate
  deriving DecidableEq, Repr

/-! ## Collaborators -/

/-- The payload `/login` signs: `{ email: userDoc.email, id: userDoc._id }`. -/
structure Claims where
  email : JVal
  id : ObjectId
  deriving DecidableEq, Repr

/-- What `src/index.js` calls but does not define.
`sign c` is `jwt.sign(c, jwtSecret, {})`, `verify t` is `jwt.verify(t, jwtSecret, {})`
on a non-empty string (`none` when the callback gets an `err`), `hashSync p` is
`bcrypt.hashSync(p, bcryptSalt)`, `compareSync p h` is `bcrypt.compareSync(p, h)`.
The three `*Valid` fields are the schema validation of `models/User.js`,
`models/Place.js` and `models/Booking.js`, which are not among the sources and
are therefore left as parameters. -/
structure Env where
  sign : Claims → String
  verify : String → Option Claims
  hashSync : String → String
  compareSync : String → String → Bool
  userValid : UserDoc → Bool
  placeValid : PlaceDoc → Bool
  bookingValid : BookingDoc → Bool

/-- The call `jwt.verify(token, jwtSecret, {}, cb)` on whatever the cookie holds:
a missing or empty token makes jsonwebtoken report "jwt must be provided". -/
def jwtVerify (env : Env) (token : Option String) : Option Claims :=
  match token with
  | none => none
  | some t => if t = "" then none else env.verify t

/-- JavaScript truthiness of `req.cookies.token`. -/
def truthy (token : Option String) : Bool :=
  match token with
  | none => false
  | some t => t != ""

/-! ## Responses -/

/-- The JSON payloads the handlers send. `object o` is an object literal sent with
its keys as written (`res.json({ name, email, _id })`). -/
inductive RespBody where
  | text (s : String)
  | error (msg : String)
  | message (msg : String)
  | flag (b : Bool)
  | user (u : UserDoc)
  | object (o : Fields)
  | place (p : PlaceDoc)
  | places (ps : List PlaceDoc)
  | booking (b : BookingDoc)
  | bookings (bs : List PopulatedBooking)
  deriving DecidableEq, Repr

/-- How a handler ends. `responded st body cookie` is a response with status `st`;
`cookie` is the value given to the `token` cookie by `res.cookie('token', v)`, if
any. `uncaught` is a handler that threw outside every `try`: it sends no response (inside
a `jwt.verify` callback the error is an unhandled promise rejection).
`external` stands for the replies of the upload routes, which depend on the file
system only. -/
inductive Outcome where
  | responded (status : Nat) (body : RespBody) (cookie : Option String)
  | uncaught
  | external
  deriving DecidableEq, Repr

/-- The HTTP status of an outcome, when a response was sent. -/
def Outcome.status : Outcome → Option Nat
  | .responded st _ _ => some st
  | _ => none

/-- The value the response gives to the `token` cookie, if it sets it. -/
def Outcome.cookie : Outcome → Option String
  | .responded _ _ c => c
  | _ => none

/-- A response was sent and its status is not in the 2xx range. -/
def Outcome.isRejection : Outcome → Bool
  | .responded st _ _ => !(decide (200 ≤ st) && decide (st < 300))
  | _ => false

/-- What one request leaves behind. -/
structure Result where
  outcome : Outcome
  store : Store
  trace : List DbOp
  deriving DecidableEq, Repr

/-! ## The collections' operations (Mongoose) -/

/-- A fresh ObjectId for a collection whose documents carry the ids `ids`. -/
def freshId (ids : List ObjectId) : ObjectId :=
  ids.foldr max 0 + 1

/-- How Mongoose casts a value to an ObjectId in `findById`: an id is kept,
`undefined` and `null` make the query `{ _id: null }`, anything else is a CastError. -/
inductive IdCast where
  | ok (n : ObjectId)
  | nothing
  | error
  deriving DecidableEq, Repr

/-- The cast of a value to an ObjectId. -/
def castObjectId : JVal → IdCast
  | .oid n => .ok n
  | .undefined => .nothing
  | .null => .nothing
  | _ => .error

/-- Whether a stored field matches the value of an equality filter. A filter value
of `undefined` reaches MongoDB as `null`, and `null` in a filter matches a field that
is `null` or missing. -/
def matchesField (q f : JVal) : Bool :=
  if q = .null ∨ q = .undefined then (f == .null || f == .undefined) else f == q

/-- Modelled from the spec: `models/User.js` is not among the sources; the spec's
data model gives a User the paths name, email and the password hash, with
`email (unique)`. `User.create({ name, email, password })` stores the document
under a fresh id, and throws (`none`) when validation fails or the email is taken. -/
def User.create (env : Env) (s : Store) (name email : JVal) (password : String) :
    Option (Store × UserDoc) :=
  let doc : UserDoc :=
    { _id := freshId (s.users.map (·._id)), name := name, email := email, password := password }
  if env.userValid doc && !(s.users.any (fun u => u.email == email)) then
    some ({ s with users := s.users ++ [doc] }, doc)
  else none

/-- The query `User.findOne({ email })`: the first user whose email matches. -/
def User.findOne (s : Store) (email : JVal) : Option UserDoc :=
  s.users.find? (fun u => matchesField email u.email)

/-- The query `User.findById(id)`; `none` is a thrown CastError. -/
def User.findById (s : Store) (id : JVal) : Option (Option UserDoc) :=
  match castObjectId id with
  | .ok n => some (s.users.find? (fun u => u._id == n))
  | .nothing => some none
  | .error => none

/-- The owner reference carried by an object literal. -/
def ownerOf (o : Fields) : Option ObjectId :=
  match o.get "owner" with
  | .oid n => some n
  | _ => none

/-- Modelled from the spec: `models/Place.js` is not among the sources; the schema
paths are the fields of the spec's Place data model (owner, title, address, photos,
description, perks, extraInfo, checkIn, checkOut, maxGuests, price). Mongoose builds
a document from an object literal by reading the schema paths and dropping every
other key (strict mode). -/
def PlaceDoc.ofFields (id : ObjectId) (o : Fields) : PlaceDoc :=
  { _id := id
    owner := ownerOf o
    title := o.get "title"
    address := o.get "address"
    photos := o.get "photos"
    description := o.get "description"
    perks := o.get "perks"
    extraInfo := o.get "extraInfo"
    checkIn := o.get "checkIn"
    checkOut := o.get "checkOut"
    maxGuests := o.get "maxGuests"
    price := o.get "price" }

/-- One path of `doc.set(o)`: a key of `o` overwrites the path (with `undefined`
too), a key that `o` lacks leaves it alone. -/
def setPath (o : Fields) (k : String) (old : JVal) : JVal :=
  match o.lookup k with
  | some v => v
  | none => old

/-- The call `placeDoc.set(o)` over the schema paths of Place. -/
def PlaceDoc.set (p : PlaceDoc) (o : Fields) : PlaceDoc :=
  { _id := p._id
    owner := if o.has "owner" then ownerOf o else p.owner
    title := setPath o "title" p.title
    address := setPath o "address" p.address
    photos := setPath o "photos" p.photos
    description := setPath o "description" p.description
    perks := setPath o "perks" p.perks
    extraInfo := setPath o "extraInfo" p.extraInfo
    checkIn := setPath o "checkIn" p.checkIn
    checkOut := setPath o "checkOut" p.checkOut
    maxGuests := setPath o "maxGuests" p.maxGuests
    price := setPath o "price" p.price }

/-- The call `Place.create(o)`: `none` is a thrown validation error. -/
def Place.create (env : Env) (s : Store) (o : Fields) : Option (Store × PlaceDoc) :=
  let doc := PlaceDoc.ofFields (freshId (s.places.map (·._id))) o
  if env.placeValid doc then some ({ s with places := s.places ++ [doc] }, doc) else none

/-- The stored place with the given id. -/
def Place.lookup (s : Store) (n : ObjectId) : Option PlaceDoc :=
  s.places.find? (fun p => p._id == n)

/-- The query `Place.findById(id)`; `none` is a thrown CastError, `some none` is the
result `null`. -/
def Place.findById (s : Store) (id : JVal) : Option (Option PlaceDoc) :=
  match castObjectId id with
  | .ok n => some (Place.lookup s n)
  | .nothing => some none
  | .error => none

/-- The query `Place.find({ owner: id })`. -/
def Place.findByOwner (s : Store) (id : ObjectId) : List PlaceDoc :=
  s.places.filter (fun p => p.owner == some id)

/-- Writing a document back over the stored one that has its `_id`. -/
def replaceById (doc : PlaceDoc) : List PlaceDoc → List PlaceDoc
  | [] => []
  | p :: ps => if p._id == doc._id then doc :: ps else p :: replaceById doc ps

/-- The call `placeDoc.save()`: `none` is a thrown validation error. -/
def Place.save (env : Env) (s : Store) (doc : PlaceDoc) : Option Store :=
  if env.placeValid doc then some { s with places := replaceById doc s.places } else none

/-- The user reference carried by an object literal. -/
def userOf (o : Fields) : Option ObjectId :=
  match o.get "user" with
  | .oid n => some n
  | _ => none

/-- Modelled from the spec: `models/Booking.js` is not among the sources; the schema
paths are the fields of the spec's Booking data model (place, user, checkIn,
checkOut, numberOfGuests, name, phone, price). -/
def BookingDoc.ofFields (id : ObjectId) (o : Fields) : BookingDoc :=
  { _id := id
    place := o.get "place"
    user := userOf o
    checkIn := o.get "checkIn"
    checkOut := o.get "checkOut"
    numberOfGuests := o.get "numberOfGuests"
    name := o.get "name"
    phone := o.get "phone"
    price := o.get "price" }

/-- The call `Booking.create(o)`: `none` is a thrown validation error. -/
def Booking.create (env : Env) (s : Store) (o : Fields) : Option (Store × BookingDoc) :=
  let doc := BookingDoc.ofFields (freshId (s.bookings.map (·._id))) o
  if env.bookingValid doc then some ({ s with bookings := s.bookings ++ [doc] }, doc) else none

/-- The query `Booking.find({ user: id })`. -/
def Booking.findByUser (s : Store) (id : ObjectId) : List BookingDoc :=
  s.bookings.filter (fun b => b.user == some id)

/-- The step `.populate('place')` on one booking. -/
def populatePlace (s : Store) (b : BookingDoc) : PopulatedBooking :=
  { booking := b
    placeDoc := match b.place with
      | .oid n => Place.lookup s n
      | _ => none }

/-! ## The handlers of `src/index.js` -/

/-- The helper `getUserDataFromReq(req)`: the promise resolves with the token's claims
or is rejected (`none`). -/
def getUserDataFromReq (env : Env) (req : Request) : Option Claims :=
  jwtVerify env req.token

/-- The route `POST /test`. -/
def postTest (s : Store) : Result :=
  ⟨.responded 200 (.text "Success!") none, s, []⟩

/-- The route `POST /register`. `bcrypt.hashSync` throws on a password that is no
string; the `try` turns that, and a failed `User.create`, into a 500. -/
def postRegister (env : Env) (s : Store) (req : Request) : Result :=
  let name := req.body.get "name"
  let email := req.body.get "email"
  let password := req.body.get "password"
  match password with
  | .str p =>
    match User.create env s name email (env.hashSync p) with
    | some (s', userDoc) => ⟨.responded 201 (.user userDoc) none, s', [.userCreate]⟩
    | none => ⟨.responded 500 (.message "Internal server error") none, s, [.userCreate]⟩
  | _ => ⟨.responded 500 (.message "Internal server error") none, s, []⟩

/-- The route `POST /login`. `bcrypt.compareSync` throws on a password that is no
string, and nothing catches it. -/
def postLogin (env : Env) (s : Store) (req : Request) : Result :=
  let email := req.body.get "email"
  let password := req.body.get "password"
  match User.findOne s email with
  | some userDoc =>
    match password with
    | .str p =>
      if env.compareSync p userDoc.password then
        ⟨.responded 200 (.user userDoc) (some (env.sign ⟨userDoc.email, userDoc._id⟩)), s,
          [.userFindOne]⟩
      else ⟨.responded 422 (.text "Incorrect password") none, s, [.userFindOne]⟩
    | _ => ⟨.uncaught, s, [.userFindOne]⟩
  | none => ⟨.responded 404 (.text "User not found") none, s, [.userFindOne]⟩

/-- The body of the `jwt.verify` callback of `GET /profile` once the token verified:
`const { name, email, _id } = await User.findById(userData.id)` throws when the
query yields `null`. -/
def profileAuthed (s : Store) (userData : Claims) : Result :=
  match User.findById s (.oid userData.id) with
  | some (some u) =>
    ⟨.responded 200 (.object [("name", u.name), ("email", u.email), ("_id", .oid u._id)]) none, s,
      [.userFindById]⟩
  | _ => ⟨.uncaught, s, [.userFindById]⟩

/-- The route `GET /profile`. -/
def getProfile (env : Env) (s : Store) (req : Request) : Result :=
  if truthy req.token then
    match jwtVerify env req.token with
    | none => ⟨.responded 403 (.text "Invalid token") none, s, []⟩
    | some userData => profileAuthed s userData
  else ⟨.responded 401 (.text "Unauthorized") none, s, []⟩

/-- The route `POST /logout`. -/
def postLogout (s : Store) : Result :=
  ⟨.responded 200 (.flag true) (some ""), s, []⟩

/-- The body of the `jwt.verify` callback of `POST /places` once the token verified. -/
def postPlacesAuthed (env : Env) (s : Store) (req : Request) (userData : Claims) : Result :=
  let title := req.body.get "title"
  let address := req.body.get "address"
  let addedPhotos := req.body.get "addedPhotos"
  let description := req.body.get "description"
  let perks := req.body.get "perks"
  let extraInfo := req.body.get "extraInfo"
  let checkIn := req.body.get "checkIn"
  let checkOut := req.body.get "checkOut"
  let maxGuests := req.body.get "maxGuests"
  let prices := req.body.get "prices"
  match Place.create env s
      [("owner", .oid userData.id), ("title", title), ("address", address),
       ("photos", addedPhotos), ("description", description), ("perks", perks),
       ("extraInfo", extraInfo), ("checkIn", checkIn), ("checkOut", checkOut),
       ("maxGuests", maxGuests), ("prices", prices)] with
  | some (s', placeDoc) => ⟨.responded 200 (.place placeDoc) none, s', [.placeCreate]⟩
  | none => ⟨.responded 500 (.error "Failed to create place") none, s, [.placeCreate]⟩

/-- The route `POST /places`. -/
def postPlaces (env : Env) (s : Store) (req : Request) : Result :=
  match jwtVerify env req.token with
  | none => ⟨.responded 403 (.error "Invalid token") none, s, []⟩
  | some userData => postPlacesAuthed env s req userData

/-- The body of the `jwt.verify` callback of `GET /user-places` once the token
verified. The extra test on `userData.id` never fires: verified claims carry an id. -/
def userPlacesAuthed (s : Store) (userData : Claims) : Result :=
  ⟨.responded 200 (.places (Place.findByOwner s userData.id)) none, s, [.placeFind]⟩

/-- The route `GET /user-places`. -/
def getUserPlaces (env : Env) (s : Store) (req : Request) : Result :=
  if !truthy req.token then ⟨.responded 401 (.error "No token provided") none, s, []⟩
  else
    match jwtVerify env req.token with
    | none => ⟨.responded 403 (.error "Invalid or expired token") none, s, []⟩
    | some userData => userPlacesAuthed s userData

/-- The route `GET /places/:id`. A CastError of `findById` is caught nowhere. -/
def getPlaceById (s : Store) (req : Request) : Result :=
  match Place.findById s req.paramId with
  | none => ⟨.uncaught, s, [.placeFindById]⟩
  | some none => ⟨.responded 404 (.text "Not found") none, s, [.placeFindById]⟩
  | some (some place) => ⟨.responded 200 (.place place) none, s, [.placeFindById]⟩

/-- The body of the `jwt.verify` callback of `PUT /places` once the token verified.
Reading `placeDoc.owner` throws when `findById` gave `null`, `.toString()` throws
when the owner is missing, `save()` throws on a validation error; nothing catches
any of them. -/
def putPlacesAuthed (env : Env) (s : Store) (req : Request) (userData : Claims) : Result :=
  let id := req.body.get "id"
  let title := req.body.get "title"
  let address := req.body.get "address"
  let addedPhotos := req.body.get "addedPhotos"
  let description := req.body.get "description"
  let perks := req.body.get "perks"
  let extraInfo := req.body.get "extraInfo"
  let checkIn := req.body.get "checkIn"
  let checkOut := req.body.get "checkOut"
  let maxGuests := req.body.get "maxGuests"
  let price := req.body.get "price"
  match Place.findById s id with
  | some (some placeDoc) =>
    match placeDoc.owner with
    | some owner =>
      if userData.id = owner then
        match Place.save env s (placeDoc.set
            [("title", title), ("address", address), ("photos", addedPhotos),
             ("description", description), ("perks", perks), ("extraInfo", extraInfo),
             ("checkIn", checkIn), ("checkOut", checkOut), ("maxGuests", maxGuests),
             ("price", price)]) with
        | some s' => ⟨.responded 200 (.text "ok") none, s', [.placeFindById, .placeSave]⟩
        | none => ⟨.uncaught, s, [.placeFindById, .placeSave]⟩
      else ⟨.responded 403 (.error "Unauthorized") none, s, [.placeFindById]⟩
    | none => ⟨.uncaught, s, [.placeFindById]⟩
  | _ => ⟨.uncaught, s, [.placeFindById]⟩

/-- The route `PUT /places`. -/
def putPlaces (env : Env) (s : Store) (req : Request) : Result :=
  match jwtVerify env req.token with
  | none => ⟨.responded 403 (.error "Invalid token") none, s, []⟩
  | some userData => putPlacesAuthed env s req userData

/-- The route `GET /places`. -/
def getPlaces (s : Store) : Result :=
  ⟨.responded 200 (.places s.places) none, s, [.placeFind]⟩

/-- The `try` block of `GET /bookings` after `getUserDataFromReq` resolved. -/
def getBookingsAuthed (s : Store) (userData : Claims) : Result :=
  ⟨.responded 200 (.bookings ((Booking.findByUser s userData.id).map (populatePlace s))) none, s,
    [.bookingFind, .bookingPopulate]⟩

/-- The route `GET /bookings`: a rejected `getUserDataFromReq` lands in the `catch`. -/
def getBookings (env : Env) (s : Store) (req : Request) : Result :=
  match getUserDataFromReq env req with
  | none => ⟨.responded 401 (.error "Unauthorized") none, s, []⟩
  | some userData => getBookingsAuthed s userData

/-- The `try` block of `POST /bookings` after `getUserDataFromReq` resolved. -/
def postBookingsAuthed (env : Env) (s : Store) (req : Request) (userData : Claims) : Result :=
  let place := req.body.get "place"
  let checkIn := req.body.get "checkIn"
  let checkOut := req.body.get "checkOut"
  let numberOfGuests := req.body.get "numberOfGuests"
  let name := req.body.get "name"
  let phone := req.body.get "phone"
  let price := req.body.get "price"
  match Booking.create env s
      [("place", place), ("checkIn", checkIn), ("checkOut", checkOut),
       ("numberOfGuests", numberOfGuests), ("name", name), ("phone", phone),
       ("price", price), ("user", .oid userData.id)] with
  | some (s', bookingDoc) => ⟨.responded 200 (.booking bookingDoc) none, s', [.bookingCreate]⟩
  | none => ⟨.responded 500 (.error "Failed to create booking") none, s, [.bookingCreate]⟩

/-- The route `POST /bookings`: a rejected `getUserDataFromReq` lands in the `catch`. -/
def postBookings (env : Env) (s : Store) (req : Request) : Result :=
  match getUserDataFromReq env req with
  | none => ⟨.responded 500 (.error "Failed to create booking") none, s, []⟩
  | some userData => postBookingsAuthed env s req userData

/-- The routes `src/index.js` registers. -/
inductive Endpoint where
  | postTest
  | postRegister
  | postLogin
  | getProfile
  | postLogout
  | postUploadByLink
  | postUpload
  | postPlaces
  | getUserPlaces
  | getPlaceById
  | putPlaces
  | getPlaces
  | getBookings
  | postBookings
  deriving DecidableEq, Repr

/-- Dispatch of a request to its route. The two upload routes work on the file
system and never touch a collection. -/
def handle (env : Env) (s : Store) (ep : Endpoint) (req : Request) : Result :=
  match ep with
  | .postTest => postTest s
  | .postRegister => postRegister env s req
  | .postLogin => postLogin env s req
  | .getProfile => getProfile env s req
  | .postLogout => postLogout s
  | .postUploadByLink => ⟨.external, s, []⟩
  | .postUpload => ⟨.external, s, []⟩
  | .postPlaces => postPlaces env s req
  | .getUserPlaces => getUserPlaces env s req
  | .getPlaceById => getPlaceById s req
  | .putPlaces => putPlaces env s req
  | .getPlaces => getPlaces s
  | .getBookings => getBookings env s req
  | .postBookings => postBookings env s req

/-- The store after a sequence of requests, served one after the other. -/
def run (env : Env) (s : Store) : List (Endpoint × Request) → Store
  | [] => s
  | (ep, req) :: rest => run env (handle env s ep req).store rest

/-- The routes that need an identity. -/
def identityEndpoints : List Endpoint :=
  [.getProfile, .postPlaces, .putPlaces, .getUserPlaces, .getBookings, .postBookings]

/-- What a route does once the token verified to `userData`. -/
def authed (env : Env) (s : Store) (ep : Endpoint) (req : Request) (userData : Claims) : Result :=
  match ep with
  | .getProfile => profileAuthed s userData
  | .postPlaces => postPlacesAuthed env s req userData
  | .putPlaces => putPlacesAuthed env s req userData
  | .getUserPlaces => userPlacesAuthed s userData
  | .getBookings => getBookingsAuthed s userData
  | .postBookings => postBookingsAuthed env s req userData
  | ep => handle env s ep req

/-- Every place stored in `s` is still stored in `s'` under its id, with the owner
it had. -/
def OwnersKept (s s' : Store) : Prop :=
  ∀ i p, Place.lookup s i = some p → ∃ p', Place.lookup s' i = some p' ∧ p'.owner = p.owner

/-! ## Sample data -/

/-- A token service that knows two tokens, and collaborators that accept everything. -/
def exEnv : Env :=
  { sign := fun c => if c.id = 1 then "tokA" else "tokB"
    verify := fun t =>
      if t = "tokA" then some ⟨.str "ann@x.com", 1⟩
      else if t = "tokB" then some ⟨.str "bob@x.com", 2⟩ else none
    hashSync := fun p => p
    compareSync := fun p h => decide (p = h)
    userValid := fun _ => true
    placeValid := fun _ => true
    bookingValid := fun _ => true }

/-- Ann, with id 1. -/
def ann : UserDoc := { _id := 1, name := .str "Ann", email := .str "ann@x.com", password := "pw1" }

/-- Bob, with id 2. -/
def bob : UserDoc := { _id := 2, name := .str "Bob", email := .str "bob@x.com", password := "pw2" }

/-- A place of Bob. -/
def cabin : PlaceDoc :=
  { _id := 1, owner := some 2, title := .str "Cabin", address := .str "1 Lake Rd",
    photos := .arr [], description := .undefined, perks := .arr ["wifi"],
    extraInfo := .undefined, checkIn := .num 14, checkOut := .num 11, maxGuests := .num 4,
    price := .num 100 }

/-- A booking of Ann and one of Bob, both for the cabin. -/
def exBookings : List BookingDoc :=
  [ { _id := 1, place := .oid 1, user := some 1, checkIn := .str "2024-01-01",
      checkOut := .str "2024-01-03", numberOfGuests := .num 2, name := .str "Ann",
      phone := .str "1", price := .num 200 },
    { _id := 2, place := .oid 1, user := some 2, checkIn := .str "2024-02-01",
      checkOut := .str "2024-02-02", numberOfGuests := .num 1, name := .str "Bob",
      phone := .str "2", price := .num 100 } ]

/-- A store with Ann, Bob, the cabin and the two bookings. -/
def exStore : Store := { users := [ann, bob], places := [cabin], bookings := exBookings }

/-- The empty store. -/
def emptyStore : Store := { users := [], places := [], bookings := [] }

/-- A creation request of Ann whose body also carries an owner, a user and an id. -/
def exCreateReq : Request :=
  { token := some "tokA"
    body := [("title", .str "Hut"), ("owner", .oid 2), ("id", .oid 9), ("user", .oid 2),
             ("place", .oid 1)]
    paramId := .undefined }

/-- A creation request of Ann that submits every field of the Place data model. -/
def exFullPlaceReq : Request :=
  { token := some "tokA"
    body := [("title", .str "Cabin"), ("address", .str "1 Lake Rd"), ("addedPhotos", .arr ["a.jpg"]),
             ("photos", .arr ["a.jpg"]), ("description", .str "By the lake"),
             ("perks", .arr ["wifi"]), ("extraInfo", .str "No pets"), ("checkIn", .num 14),
             ("checkOut", .num 11), ("maxGuests", .num 4), ("price", .num 120)]
    paramId := .undefined }

/-- The place the server stores for `exFullPlaceReq` in the empty store. -/
def exStoredPlace : PlaceDoc :=
  { _id := 1, owner := some 1, title := .str "Cabin", address := .str "1 Lake Rd",
    photos := .arr ["a.jpg"], description := .str "By the lake", perks := .arr ["wifi"],
    extraInfo := .str "No pets", checkIn := .num 14, checkOut := .num 11, maxGuests := .num 4,
    price := .undefined }

/-- The registration of Ann. -/
def exRegisterReq : Request :=
  { token := none
    body := [("name", .str "Ann"), ("email", .str "ann@x.com"), ("password", .str "pw1")]
    paramId := .undefined }

/-- A login as Ann with the given password. -/
def exLoginReq (password : String) : Request :=
  { token := none
    body := [("email", .str "ann@x.com"), ("password", .str password)]
    paramId := .undefined }

/-- Bob rewrites his cabin and sends an owner along. -/
def exPutReq : Request :=
  { token := some "tokB"
    body := [("id", .oid 1), ("owner", .oid 1), ("title", .str "Lodge"), ("price", .num 90)]
    paramId := .undefined }

/-- The body `GET /profile` sends for Ann. -/
def exProfileBody : Fields :=
  [("name", .str "Ann"), ("email", .str "ann@x.com"), ("_id", .oid 1)]

/-! ## Properties of the handlers -/

theorem find_of_mem_nodup (l : List PlaceDoc) (P : PlaceDoc) (hnd : (l.map (·._id)).Nodup)
    (hP : P ∈ l) : l.find? (fun p => p._id == P._id) = some P := by
  induction l with
  | nil => cases hP
  | cons q qs ih =>
    simp only [List.map_cons, List.nodup_cons] at hnd
    rcases List.mem_cons.mp hP with h | h
    · subst h; simp
    · have hne : q._id ≠ P._id := by
        intro heq
        exact hnd.1 (heq ▸ List.mem_map_of_mem (·._id) h)
      rw [List.find?_cons_of_neg _ (by simpa using hne)]
      exact ih hnd.2 h

/-- C1. `PUT /places` by a caller whose token verifies to an identity other than the
owner of the addressed place answers 403 and leaves the store as it was, whatever
else the body holds. -/
theorem put_places_foreign_owner_forbidden (env : Env) (s : Store) (req : Request)
    (A : Claims) (P : PlaceDoc) (B : ObjectId)
    (hids : s.UniqueIds) (hP : P ∈ s.places) (hown : P.owner = some B)
    (hid : req.body.get "id" = .oid P._id)
    (htok : jwtVerify env req.token = some A) (hne : A.id ≠ B) :
    (putPlaces env s req).outcome = .responded 403 (.error "Unauthorized") none ∧
      (putPlaces env s req).store = s := by
  have hfind : Place.findById s (req.body.get "id") = some (some P) := by
    rw [hid]
    simp only [Place.findById, castObjectId, Place.lookup]
    rw [find_of_mem_nodup s.places P hids.2.1 hP]
  simp only [putPlaces, htok, putPlacesAuthed, hfind, hown, if_neg hne, and_self]

theorem put_places_foreign_owner_forbidden_witness :
    (putPlaces exEnv exStore ⟨some "tokA", [("id", .oid 1), ("title", .str "Mine"), ("owner", .oid 1)], .undefined⟩).outcome
        = .responded 403 (.error "Unauthorized") none ∧
      (putPlaces exEnv exStore ⟨some "tokA", [("id", .oid 1), ("title", .str "Mine"), ("owner", .oid 1)], .undefined⟩).store
        = exStore :=
  put_places_foreign_owner_forbidden exEnv exStore _ ⟨.str "ann@x.com", 1⟩ cabin 2
    (by simp [Store.UniqueIds, exStore, exBookings, ann, bob, cabin]) (by simp [exStore]) rfl rfl (by decide) (by decide)

/-- C2. `GET /bookings` with a token that verifies to `A` answers 200 with exactly the
stored bookings whose `user` is `A`'s id, each with its place expanded. -/
theorem get_bookings_exactly_own (env : Env) (s : Store) (req : Request) (A : Claims)
    (htok : jwtVerify env req.token = some A) :
    ∃ bs, (getBookings env s req).outcome = .responded 200 (.bookings bs) none ∧
      bs.map (·.booking) = s.bookings.filter (fun b => b.user == some A.id) ∧
      (∀ pb ∈ bs, pb.booking.user = some A.id) ∧
      (∀ b ∈ s.bookings, b.user = some A.id → b ∈ bs.map (·.booking)) ∧
      (getBookings env s req).store = s := by
  refine ⟨(Booking.findByUser s A.id).map (populatePlace s), ?_, ?_, ?_, ?_, ?_⟩
  · simp [getBookings, getUserDataFromReq, htok, getBookingsAuthed]
  · simp [Booking.findByUser, populatePlace, Function.comp_def]
  · intro pb hpb
    simp only [Booking.findByUser, List.mem_map, List.mem_filter] at hpb
    obtain ⟨b, ⟨_, hb⟩, rfl⟩ := hpb
    simpa [populatePlace] using hb
  · intro b hb hu
    simp only [List.map_map, List.mem_map, Booking.findByUser, List.mem_filter]
    exact ⟨b, ⟨hb, by simp [hu]⟩, rfl⟩
  · simp [getBookings, getUserDataFromReq, htok, getBookingsAuthed]


theorem get_bookings_exactly_own_witness :
    jwtVerify exEnv (some "tokA") = some ⟨.str "ann@x.com", 1⟩ ∧
    ∃ bs, (getBookings exEnv exStore ⟨some "tokA", [], .undefined⟩).outcome
        = .responded 200 (.bookings bs) none ∧
      bs.map (·.booking) = exStore.bookings.filter (fun b => b.user == some 1) ∧
      (∀ pb ∈ bs, pb.booking.user = some 1) ∧
      (∀ b ∈ exStore.bookings, b.user = some 1 → b ∈ bs.map (·.booking)) ∧
      (getBookings exEnv exStore ⟨some "tokA", [], .undefined⟩).store = exStore :=
  ⟨rfl, get_bookings_exactly_own exEnv exStore ⟨some "tokA", [], .undefined⟩
    ⟨.str "ann@x.com", 1⟩ rfl⟩

/-- C3. With a token that verifies to `A`, a successful `POST /places` stores a place
whose owner is `A`'s id and a successful `POST /bookings` stores a booking whose user
is `A`'s id; a body that differs from the request's only under the keys `owner`,
`user` and `id` gives the very same result on both routes. -/
theorem create_sets_identity_from_token (env : Env) (s : Store) (req : Request) (A : Claims)
    (htok : jwtVerify env req.token = some A) :
    (∀ p, (postPlaces env s req).outcome = .responded 200 (.place p) none →
      p.owner = some A.id ∧ (postPlaces env s req).store.places = s.places ++ [p]) ∧
    (∀ b, (postBookings env s req).outcome = .responded 200 (.booking b) none →
      b.user = some A.id ∧ (postBookings env s req).store.bookings = s.bookings ++ [b]) ∧
    (∀ body2 : Fields, (∀ k, k ∉ ["owner", "user", "id"] → body2.get k = req.body.get k) →
      postPlaces env s { req with body := body2 } = postPlaces env s req ∧
      postBookings env s { req with body := body2 } = postBookings env s req) := by
  refine ⟨?_, ?_, ?_⟩
  · intro p hp
    simp only [postPlaces, htok, postPlacesAuthed, Place.create] at hp ⊢
    split at hp
    · rename_i s' d heq
      split at heq
      · simp only [Option.some.injEq, Prod.mk.injEq] at heq
        obtain ⟨hs, hd⟩ := heq
        simp only [Outcome.responded.injEq, RespBody.place.injEq, and_true, true_and] at hp
        subst hp
        subst hs
        refine ⟨?_, ?_⟩
        · rw [← hd]; rfl
        · rw [← hd]
      · cases heq
    · simp at hp
  · intro b hb
    simp only [postBookings, getUserDataFromReq, htok, postBookingsAuthed, Booking.create] at hb ⊢
    split at hb
    · rename_i s' d heq
      split at heq
      · simp only [Option.some.injEq, Prod.mk.injEq] at heq
        obtain ⟨hs, hd⟩ := heq
        simp only [Outcome.responded.injEq, RespBody.booking.injEq, and_true, true_and] at hb
        subst hb
        subst hs
        refine ⟨?_, ?_⟩
        · rw [← hd]; rfl
        · rw [← hd]
      · cases heq
    · simp at hb
  · intro body2 h
    have g : ∀ k, k ∉ ["owner", "user", "id"] → Fields.get body2 k = Fields.get req.body k := h
    constructor
    · simp only [postPlaces, htok, postPlacesAuthed]
      rw [g "title" (by decide), g "address" (by decide), g "addedPhotos" (by decide),
        g "description" (by decide), g "perks" (by decide), g "extraInfo" (by decide),
        g "checkIn" (by decide), g "checkOut" (by decide), g "maxGuests" (by decide),
        g "prices" (by decide)]
    · simp only [postBookings, getUserDataFromReq, htok, postBookingsAuthed]
      rw [g "place" (by decide), g "checkIn" (by decide), g "checkOut" (by decide),
        g "numberOfGuests" (by decide), g "name" (by decide), g "phone" (by decide),
        g "price" (by decide)]


theorem create_sets_identity_from_token_witness :
    jwtVerify exEnv exCreateReq.token = some ⟨.str "ann@x.com", 1⟩ ∧
    (∃ p, (postPlaces exEnv exStore exCreateReq).outcome = .responded 200 (.place p) none ∧
      p.owner = some 1 ∧ (postPlaces exEnv exStore exCreateReq).store.places = exStore.places ++ [p]) ∧
    (∃ b, (postBookings exEnv exStore exCreateReq).outcome = .responded 200 (.booking b) none ∧
      b.user = some 1 ∧
      (postBookings exEnv exStore exCreateReq).store.bookings = exStore.bookings ++ [b]) ∧
    postPlaces exEnv exStore { exCreateReq with body := [("title", .str "Hut"), ("place", .oid 1)] }
      = postPlaces exEnv exStore exCreateReq :=
  have h := create_sets_identity_from_token exEnv exStore exCreateReq ⟨.str "ann@x.com", 1⟩ rfl
  ⟨rfl,
   ⟨PlaceDoc.ofFields 2 [("owner", .oid 1), ("title", .str "Hut")], by decide,
     h.1 _ (by decide)⟩,
   ⟨BookingDoc.ofFields 3 [("user", .oid 1), ("place", .oid 1)], by decide,
     h.2.1 _ (by decide)⟩,
   (h.2.2 [("title", .str "Hut"), ("place", .oid 1)] (by
      intro k hk
      simp only [List.mem_cons, List.mem_singleton, List.not_mem_nil, or_false, not_or] at hk
      obtain ⟨h1, h2, h3⟩ := hk
      have e1 : (k == "owner") = false := by simpa using h1
      have e2 : (k == "user") = false := by simpa using h2
      have e3 : (k == "id") = false := by simpa using h3
      simp only [exCreateReq, Fields.get, List.lookup, e1, e2, e3])).1⟩

/-- C7. On `GET /profile`, `POST /places`, `GET /bookings`, `POST /bookings` and
`GET /user-places`, a request whose token cookie is absent or fails verification is
answered with a status outside 2xx, issues no collection operation and leaves the
three collections as they were. -/
theorem no_identity_rejected_before_db (env : Env) (s : Store) (ep : Endpoint) (req : Request)
    (hep : ep ∈ [Endpoint.getProfile, .postPlaces, .getBookings, .postBookings, .getUserPlaces])
    (htok : req.token = none ∨ jwtVerify env req.token = none) :
    (handle env s ep req).outcome.isRejection = true ∧
      (handle env s ep req).trace = [] ∧ (handle env s ep req).store = s := by
  have hv : jwtVerify env req.token = none := by
    rcases htok with h | h
    · rw [h]; rfl
    · exact h
  simp only [List.mem_cons, List.mem_singleton, List.not_mem_nil, or_false] at hep
  rcases hep with rfl | rfl | rfl | rfl | rfl
  · simp only [handle, getProfile, hv]
    split <;> simp [Outcome.isRejection]
  · simp [handle, postPlaces, hv, Outcome.isRejection]
  · simp [handle, getBookings, getUserDataFromReq, hv, Outcome.isRejection]
  · simp [handle, postBookings, getUserDataFromReq, hv, Outcome.isRejection]
  · simp only [handle, getUserPlaces, hv]
    split <;> simp [Outcome.isRejection]

theorem no_identity_rejected_before_db_witness :
    (Endpoint.postBookings ∈ [Endpoint.getProfile, .postPlaces, .getBookings, .postBookings,
        .getUserPlaces]) ∧
    jwtVerify exEnv (some "forged") = none ∧
    (handle exEnv exStore .postBookings ⟨some "forged", [("place", .oid 1)], .undefined⟩).outcome.isRejection
      = true ∧
    (handle exEnv exStore .postBookings ⟨some "forged", [("place", .oid 1)], .undefined⟩).trace = [] ∧
    (handle exEnv exStore .postBookings ⟨some "forged", [("place", .oid 1)], .undefined⟩).store
      = exStore :=
  ⟨by decide, by decide,
    no_identity_rejected_before_db exEnv exStore .postBookings
      ⟨some "forged", [("place", .oid 1)], .undefined⟩ (by decide) (Or.inr (by decide))⟩


/-- C4. The round trip loses the price: `POST /places` reads the body key `prices` and
hands it to `Place.create` under the key `prices`, which is no path of Place, so a
submitted `price` of 120 is stored nowhere and `GET /places/:id` returns the place
with no price, while the other submitted fields come back as sent. -/
theorem post_places_round_trip_loses_price :
    exFullPlaceReq.body.get "price" = .num 120 ∧
    (postPlaces exEnv emptyStore exFullPlaceReq).outcome
      = .responded 200 (.place exStoredPlace) none ∧
    (getPlaceById (postPlaces exEnv emptyStore exFullPlaceReq).store
        ⟨none, [], .oid exStoredPlace._id⟩).outcome
      = .responded 200 (.place exStoredPlace) none ∧
    exStoredPlace.price = .undefined ∧
    exStoredPlace.price ≠ exFullPlaceReq.body.get "price" := by
  decide

/-- The price of a place created by `POST /places` is never set, whatever the body. -/
theorem post_places_price_undefined (env : Env) (s : Store) (req : Request) (p : PlaceDoc)
    (h : (postPlaces env s req).outcome = .responded 200 (.place p) none) :
    p.price = .undefined := by
  simp only [postPlaces] at h
  split at h
  · simp at h
  · simp only [postPlacesAuthed, Place.create] at h
    split at h
    · rename_i s' d heq
      split at heq
      · simp only [Option.some.injEq, Prod.mk.injEq] at heq
        simp only [Outcome.responded.injEq, RespBody.place.injEq, and_true, true_and] at h
        rw [← h, ← heq.2]; rfl
      · cases heq
    · simp at h

/-- C9. A lookup by id that finds nothing ends in a 404 on `GET /places/:id` only:
`PUT /places` by an authenticated caller for an id no place has, and `GET /profile`
with a valid token whose user is not stored, throw while reading the `null`
result and no response is sent. -/
theorem missing_document_throws_on_put_and_profile :
    Place.findById exStore (.oid 7) = some none ∧
    (getPlaceById exStore ⟨none, [], .oid 7⟩).outcome = .responded 404 (.text "Not found") none ∧
    jwtVerify exEnv (some "tokB") = some ⟨.str "bob@x.com", 2⟩ ∧
    (putPlaces exEnv exStore ⟨some "tokB", [("id", .oid 7), ("title", .str "New")], .undefined⟩).outcome
      = .uncaught ∧
    User.findById emptyStore (.oid 1) = some none ∧
    jwtVerify exEnv (some "tokA") = some ⟨.str "ann@x.com", 1⟩ ∧
    (getProfile exEnv emptyStore ⟨some "tokA", [], .undefined⟩).outcome = .uncaught := by
  decide

/-- Whenever the id of a `PUT /places` body names no stored place, an authenticated
caller gets no response. -/
theorem put_places_missing_uncaught (env : Env) (s : Store) (req : Request) (A : Claims)
    (htok : jwtVerify env req.token = some A)
    (hmiss : Place.findById s (req.body.get "id") = some none) :
    (putPlaces env s req).outcome = .uncaught := by
  simp [putPlaces, htok, putPlacesAuthed, hmiss]


/-- C6. The gate is not the same on the routes that need an identity. `GET /profile`
answers 401 without a token cookie and 403 on a token that fails verification, but
without a token cookie `POST /places` and `PUT /places` answer 403 and
`POST /bookings` answers 500, and on a token that fails verification `GET /bookings`
answers 401 and `POST /bookings` answers 500. -/
theorem gate_mapping_differs_between_routes :
    (handle exEnv exStore .postPlaces ⟨none, [], .undefined⟩).outcome.status = some 403 ∧
    (handle exEnv exStore .putPlaces ⟨none, [("id", .oid 1)], .undefined⟩).outcome.status = some 403 ∧
    (handle exEnv exStore .postBookings ⟨none, [], .undefined⟩).outcome.status = some 500 ∧
    (handle exEnv exStore .getProfile ⟨none, [], .undefined⟩).outcome.status = some 401 ∧
    jwtVerify exEnv (some "forged") = none ∧
    (handle exEnv exStore .getBookings ⟨some "forged", [], .undefined⟩).outcome.status = some 401 ∧
    (handle exEnv exStore .postBookings ⟨some "forged", [], .undefined⟩).outcome.status = some 500 ∧
    (handle exEnv exStore .getProfile ⟨some "forged", [], .undefined⟩).outcome.status = some 403 := by
  decide

theorem jwtVerify_none_of_not_truthy (env : Env) (token : Option String)
    (h : truthy token = false) : jwtVerify env token = none := by
  cases token with
  | none => rfl
  | some t =>
    have : t = "" := by simpa [truthy] using h
    simp [jwtVerify, this]

/-- The status each route that needs an identity answers with: without a token
cookie (absent or empty), with a token that fails verification, and what it does
with a token that verifies. -/
theorem gate_mapping_per_route (env : Env) (s : Store) (req : Request) :
    (truthy req.token = false →
      (handle env s .getProfile req).outcome.status = some 401 ∧
      (handle env s .getUserPlaces req).outcome.status = some 401 ∧
      (handle env s .getBookings req).outcome.status = some 401 ∧
      (handle env s .postPlaces req).outcome.status = some 403 ∧
      (handle env s .putPlaces req).outcome.status = some 403 ∧
      (handle env s .postBookings req).outcome.status = some 500) ∧
    (truthy req.token = true → jwtVerify env req.token = none →
      (handle env s .getProfile req).outcome.status = some 403 ∧
      (handle env s .getUserPlaces req).outcome.status = some 403 ∧
      (handle env s .postPlaces req).outcome.status = some 403 ∧
      (handle env s .putPlaces req).outcome.status = some 403 ∧
      (handle env s .getBookings req).outcome.status = some 401 ∧
      (handle env s .postBookings req).outcome.status = some 500) ∧
    (∀ A, jwtVerify env req.token = some A → ∀ ep ∈ identityEndpoints,
      handle env s ep req = authed env s ep req A) := by
  refine ⟨?_, ?_, ?_⟩
  · intro h
    have hv := jwtVerify_none_of_not_truthy env req.token h
    simp [handle, getProfile, getUserPlaces, getBookings, postPlaces, putPlaces, postBookings,
      getUserDataFromReq, h, hv, Outcome.status, Outcome.isRejection]
  · intro h hv
    simp [handle, getProfile, getUserPlaces, getBookings, postPlaces, putPlaces, postBookings,
      getUserDataFromReq, h, hv, Outcome.status, Outcome.isRejection]
  · intro A hA ep hep
    have ht : truthy req.token = true := by
      cases htk : req.token with
      | none => rw [htk] at hA; cases hA
      | some t =>
        rw [htk] at hA
        by_cases ht : t = ""
        · simp [jwtVerify, ht] at hA
        · simp [truthy, ht]
    simp only [identityEndpoints, List.mem_cons, List.mem_singleton, List.not_mem_nil,
      or_false] at hep
    rcases hep with rfl | rfl | rfl | rfl | rfl | rfl <;>
      simp [handle, authed, getProfile, getUserPlaces, getBookings, postPlaces, putPlaces,
        postBookings, getUserDataFromReq, ht, hA]

/-! ### Registration, login, session -/

theorem le_foldr_max (ids : List ObjectId) (x : ObjectId) (hx : x ∈ ids) :
    x ≤ ids.foldr max 0 := by
  induction ids with
  | nil => cases hx
  | cons y ys ih =>
    simp only [List.foldr_cons]
    rcases List.mem_cons.mp hx with h | h
    · subst h; exact le_max_left _ _
    · exact le_trans (ih h) (le_max_right _ _)

theorem lt_freshId (ids : List ObjectId) (x : ObjectId) (hx : x ∈ ids) : x < freshId ids :=
  Nat.lt_succ_of_le (le_foldr_max ids x hx)

/-- What a successful `POST /register` has done. -/
theorem register_created (env : Env) (s : Store) (req : Request) (e p : String) (u : UserDoc)
    (he : req.body.get "email" = .str e) (hp : req.body.get "password" = .str p)
    (h : (postRegister env s req).outcome = .responded 201 (.user u) none) :
    u = ⟨freshId (s.users.map (·._id)), req.body.get "name", .str e, env.hashSync p⟩ ∧
      (postRegister env s req).store = { s with users := s.users ++ [u] } ∧
      (∀ v ∈ s.users, v.email ≠ .str e) := by
  simp only [postRegister, hp, he, User.create] at h ⊢
  split at h
  · rename_i s' d heq
    split at heq
    · rename_i hc
      simp only [Option.some.injEq, Prod.mk.injEq] at heq
      simp only [Outcome.responded.injEq, RespBody.user.injEq, and_true, true_and] at h
      obtain ⟨hs, hd⟩ := heq
      subst h
      refine ⟨hd.symm, ?_, ?_⟩
      · rw [← hs, hd]
      · intro v hv hve
        simp only [Bool.and_eq_true, Bool.not_eq_true', List.any_eq_false] at hc
        exact hc.2 v hv (by simp [hve])
    · cases heq
  · simp at h

theorem findOne_after_register (s : Store) (e : String) (u : UserDoc)
    (hu : u.email = .str e) (hfree : ∀ v ∈ s.users, v.email ≠ .str e) :
    User.findOne { s with users := s.users ++ [u] } (.str e) = some u := by
  have hnone : s.users.find? (fun v => matchesField (.str e) v.email) = none := by
    rw [List.find?_eq_none]
    intro v hv
    simpa [matchesField] using hfree v hv
  simp only [User.findOne, List.find?_append, hnone, Option.none_or]
  simp [matchesField, hu]

theorem findById_after_register (s : Store) (u : UserDoc)
    (hid : u._id = freshId (s.users.map (·._id))) :
    User.findById { s with users := s.users ++ [u] } (.oid u._id) = some (some u) := by
  have hnone : s.users.find? (fun v => v._id == u._id) = none := by
    rw [List.find?_eq_none]
    intro v hv
    have := lt_freshId (s.users.map (·._id)) v._id (List.mem_map_of_mem (·._id) hv)
    rw [← hid] at this
    simpa using Nat.ne_of_lt this
  simp [User.findById, castObjectId, List.find?_append, hnone]

theorem findOne_unknown (s : Store) (e : String) (hfree : ∀ v ∈ s.users, v.email ≠ .str e) :
    User.findOne s (.str e) = none := by
  simp only [User.findOne]
  rw [List.find?_eq_none]
  intro v hv
  simpa [matchesField] using hfree v hv

/-- C5, as stated, fails: a login with a registered email and a wrong password is
answered 422, not 403. -/
theorem login_wrong_password_is_422 :
    (postRegister exEnv emptyStore exRegisterReq).outcome = .responded 201 (.user ann) none ∧
    (postLogin exEnv (postRegister exEnv emptyStore exRegisterReq).store
      (exLoginReq "pw2")).outcome = .responded 422 (.text "Incorrect password") none ∧
    (postLogin exEnv (postRegister exEnv emptyStore exRegisterReq).store
      (exLoginReq "pw2")).outcome.status ≠ some 403 := by
  decide


/-- C5, amended. After one successful `POST /register` of `(e, p)`: a login with `e`
and `p` is answered 200 with the user document and a token cookie whose claims are
that user's id and email; a login with `e` and any other password string is answered
422 "Incorrect password" and sets no cookie; a login with an email that no stored
user has is answered 404 and sets no cookie. The hash is abstract: `compareSync q
(hashSync p)` holds exactly for `q = p`. -/
theorem login_outcomes_after_register (env : Env) (s : Store) (reqR : Request) (e p : String)
    (u : UserDoc)
    (he : reqR.body.get "email" = .str e) (hp : reqR.body.get "password" = .str p)
    (hreg : (postRegister env s reqR).outcome = .responded 201 (.user u) none)
    (hcmp : ∀ q, env.compareSync q (env.hashSync p) = decide (q = p))
    (hjwt : env.verify (env.sign ⟨.str e, u._id⟩) = some ⟨.str e, u._id⟩)
    (hne : env.sign ⟨.str e, u._id⟩ ≠ "") :
    (∀ reqL : Request, reqL.body.get "email" = .str e → reqL.body.get "password" = .str p →
      (postLogin env (postRegister env s reqR).store reqL).outcome
          = .responded 200 (.user u) (some (env.sign ⟨.str e, u._id⟩)) ∧
        jwtVerify env (some (env.sign ⟨.str e, u._id⟩)) = some ⟨.str e, u._id⟩) ∧
    (∀ (reqL : Request) (q : String), q ≠ p →
      reqL.body.get "email" = .str e → reqL.body.get "password" = .str q →
      (postLogin env (postRegister env s reqR).store reqL).outcome
        = .responded 422 (.text "Incorrect password") none) ∧
    (∀ (reqL : Request) (e' : String), reqL.body.get "email" = .str e' →
      (∀ v ∈ (postRegister env s reqR).store.users, v.email ≠ .str e') →
      (postLogin env (postRegister env s reqR).store reqL).outcome
        = .responded 404 (.text "User not found") none) := by
  obtain ⟨hu, hs, hfree⟩ := register_created env s reqR e p u he hp hreg
  have hmail : u.email = .str e := by rw [hu]
  have hpw : u.password = env.hashSync p := by rw [hu]
  have hfind := findOne_after_register s e u hmail hfree
  refine ⟨?_, ?_, ?_⟩
  · intro reqL hle hlp
    constructor
    · simp [postLogin, hs, hle, hlp, hfind, hpw, hcmp, hmail]
    · simp [jwtVerify, hne, hjwt]
  · intro reqL q hq hle hlp
    simp [postLogin, hs, hle, hlp, hfind, hpw, hcmp, hq]
  · intro reqL e' hle hnone
    simp [postLogin, hle, findOne_unknown _ e' hnone]

theorem login_outcomes_after_register_witness :
    (postRegister exEnv emptyStore exRegisterReq).outcome = .responded 201 (.user ann) none ∧
    (postLogin exEnv (postRegister exEnv emptyStore exRegisterReq).store
        (exLoginReq "pw1")).outcome = .responded 200 (.user ann) (some "tokA") ∧
    jwtVerify exEnv (some "tokA") = some ⟨.str "ann@x.com", 1⟩ ∧
    (postLogin exEnv (postRegister exEnv emptyStore exRegisterReq).store
        (exLoginReq "oops")).outcome = .responded 422 (.text "Incorrect password") none ∧
    (postLogin exEnv (postRegister exEnv emptyStore exRegisterReq).store
        ⟨none, [("email", .str "bob@x.com"), ("password", .str "pw1")], .undefined⟩).outcome
      = .responded 404 (.text "User not found") none :=
  have h := login_outcomes_after_register exEnv emptyStore exRegisterReq "ann@x.com" "pw1" ann
    rfl rfl (by decide) (fun _ => rfl) (by decide) (by decide)
  ⟨by decide, (h.1 (exLoginReq "pw1") rfl rfl).1, (h.1 (exLoginReq "pw1") rfl rfl).2,
    h.2.1 (exLoginReq "oops") "oops" (by decide) rfl rfl,
    h.2.2 ⟨none, [("email", .str "bob@x.com"), ("password", .str "pw1")], .undefined⟩ "bob@x.com"
      rfl (by decide)⟩

/-- C10, as stated, fails on the key of the id: the body `GET /profile` sends for a
logged-in user has the keys `name`, `email` and `_id`; it has no key `id`. -/
theorem profile_body_has_no_id_key :
    (postRegister exEnv emptyStore exRegisterReq).outcome = .responded 201 (.user ann) none ∧
    (postLogin exEnv (postRegister exEnv emptyStore exRegisterReq).store
      (exLoginReq "pw1")).outcome = .responded 200 (.user ann) (some "tokA") ∧
    (getProfile exEnv (postRegister exEnv emptyStore exRegisterReq).store
      ⟨some "tokA", [], .undefined⟩).outcome = .responded 200 (.object exProfileBody) none ∧
    exProfileBody.get "id" = .undefined ∧
    exProfileBody.get "id" ≠ .oid ann._id ∧
    exProfileBody.get "_id" = .oid ann._id := by
  decide

/-- C10, amended. Session life cycle of a registered user `U`: the token cookie set by
`U`'s successful login makes `GET /profile` answer 200 with the body
`{name, email, _id}` holding `U`'s name, email and id; `POST /logout` sets the token
cookie to the empty string; `GET /profile` with that emptied cookie answers 401, the
answer for a missing credential. -/
theorem session_life_cycle (env : Env) (s : Store) (reqR : Request) (e p : String)
    (u : UserDoc)
    (he : reqR.body.get "email" = .str e) (hp : reqR.body.get "password" = .str p)
    (hreg : (postRegister env s reqR).outcome = .responded 201 (.user u) none)
    (hjwt : env.verify (env.sign ⟨.str e, u._id⟩) = some ⟨.str e, u._id⟩)
    (hne : env.sign ⟨.str e, u._id⟩ ≠ "")
    (reqL reqP : Request) (tok : String)
    (hlogin : (postLogin env (postRegister env s reqR).store reqL).outcome
      = .responded 200 (.user u) (some tok)) :
    (getProfile env (postRegister env s reqR).store { reqP with token := some tok }).outcome
      = .responded 200
          (.object [("name", reqR.body.get "name"), ("email", .str e), ("_id", .oid u._id)])
          none ∧
    (postLogout (postRegister env s reqR).store).outcome
      = .responded 200 (.flag true) (some "") ∧
    (getProfile env (postRegister env s reqR).store
        { reqP with token := (postLogout (postRegister env s reqR).store).outcome.cookie }).outcome
      = .responded 401 (.text "Unauthorized") none := by
  obtain ⟨hu, hs, _⟩ := register_created env s reqR e p u he hp hreg
  have hmail : u.email = .str e := by rw [hu]
  have hname : u.name = reqR.body.get "name" := by rw [hu]
  have hid : u._id = freshId (s.users.map (·._id)) := by rw [hu]
  have hbyid := findById_after_register s u hid
  have htok : tok = env.sign ⟨.str e, u._id⟩ := by
    simp only [postLogin] at hlogin
    split at hlogin
    · split at hlogin
      · split at hlogin
        · simp only [Outcome.responded.injEq, RespBody.user.injEq, Option.some.injEq,
            true_and] at hlogin
          obtain ⟨hd, ht⟩ := hlogin
          rw [← ht, hd, hmail]
        · simp at hlogin
      · simp at hlogin
    · simp at hlogin
  subst htok
  refine ⟨?_, ?_, ?_⟩
  · simp [getProfile, truthy, jwtVerify, hne, hjwt, profileAuthed, hs, hbyid, hmail, hname]
  · rfl
  · simp [getProfile, truthy, postLogout, Outcome.cookie]

theorem session_life_cycle_witness :
    (postRegister exEnv emptyStore exRegisterReq).outcome = .responded 201 (.user ann) none ∧
    (postLogin exEnv (postRegister exEnv emptyStore exRegisterReq).store
      (exLoginReq "pw1")).outcome = .responded 200 (.user ann) (some "tokA") ∧
    (getProfile exEnv (postRegister exEnv emptyStore exRegisterReq).store
      ⟨some "tokA", [], .undefined⟩).outcome
      = .responded 200 (.object [("name", .str "Ann"), ("email", .str "ann@x.com"), ("_id", .oid 1)])
          none ∧
    (postLogout (postRegister exEnv emptyStore exRegisterReq).store).outcome
      = .responded 200 (.flag true) (some "") ∧
    (getProfile exEnv (postRegister exEnv emptyStore exRegisterReq).store
      ⟨(postLogout (postRegister exEnv emptyStore exRegisterReq).store).outcome.cookie, [],
        .undefined⟩).outcome = .responded 401 (.text "Unauthorized") none :=
  ⟨by decide, by decide,
    session_life_cycle exEnv emptyStore exRegisterReq "ann@x.com" "pw1" ann rfl rfl (by decide)
      (by decide) (by decide) (exLoginReq "pw1") ⟨none, [], .undefined⟩ "tokA" (by decide)⟩

/-! ### The owner of a place -/

theorem ownersKept_refl (s : Store) : OwnersKept s s :=
  fun _ p h => ⟨p, h, rfl⟩

theorem ownersKept_trans {s₁ s₂ s₃ : Store} (h₁ : OwnersKept s₁ s₂) (h₂ : OwnersKept s₂ s₃) :
    OwnersKept s₁ s₃ := by
  intro i p hp
  obtain ⟨q, hq, hqo⟩ := h₁ i p hp
  obtain ⟨r, hr, hro⟩ := h₂ i q hq
  exact ⟨r, hr, hro.trans hqo⟩

theorem ownersKept_of_places_eq {s s' : Store} (h : s'.places = s.places) : OwnersKept s s' := by
  intro i p hp
  exact ⟨p, by simpa [Place.lookup, h] using hp, rfl⟩

theorem ownersKept_append (s : Store) (d : PlaceDoc) :
    OwnersKept s { s with places := s.places ++ [d] } := by
  intro i p hp
  refine ⟨p, ?_, rfl⟩
  simp only [Place.lookup] at hp ⊢
  simp [List.find?_append, hp]

theorem lookup_replaceById (doc : PlaceDoc) (l : List PlaceDoc) (i : ObjectId) :
    (replaceById doc l).find? (fun p => p._id == i)
      = if doc._id = i then (l.find? (fun p => p._id == i)).map (fun _ => doc)
        else l.find? (fun p => p._id == i) := by
  induction l with
  | nil => simp [replaceById]
  | cons p ps ih =>
    by_cases hpd : p._id = doc._id
    · by_cases hdi : doc._id = i
      · simp [replaceById, hpd, hdi]
      · simp [replaceById, hpd, hdi]
    · by_cases hdi : doc._id = i
      · subst hdi
        have e : (p._id == doc._id) = false := by simpa using hpd
        simp [replaceById, e, ih]
      · simp only [replaceById, beq_iff_eq, hpd, if_false, List.find?_cons, ih, hdi]

theorem ownersKept_replace (s : Store) (doc : PlaceDoc)
    (h : ∀ q, Place.lookup s doc._id = some q → doc.owner = q.owner) :
    OwnersKept s { s with places := replaceById doc s.places } := by
  intro i p hp
  simp only [Place.lookup] at hp ⊢
  rw [lookup_replaceById]
  by_cases hdi : doc._id = i
  · subst hdi
    simp only [if_true, hp, Option.map_some']
    exact ⟨doc, rfl, h p hp⟩
  · simp only [hdi, if_false]
    exact ⟨p, hp, rfl⟩

theorem lookup_id {s : Store} {n : ObjectId} {p : PlaceDoc} (h : Place.lookup s n = some p) :
    p._id = n := by
  simpa using List.find?_some h

/-- One request keeps the owner of every stored place. -/
theorem handle_ownersKept (env : Env) (s : Store) (ep : Endpoint) (req : Request) :
    OwnersKept s (handle env s ep req).store := by
  cases ep
  case postTest => exact ownersKept_refl s
  case postRegister =>
    apply ownersKept_of_places_eq
    simp only [handle, postRegister, User.create]
    split
    · split
      · rename_i heq
        split at heq
        · simp only [Option.some.injEq, Prod.mk.injEq] at heq
          rw [← heq.1]
        · cases heq
      · rfl
    · rfl
  case postLogin =>
    apply ownersKept_of_places_eq
    simp only [handle, postLogin]
    split
    · split
      · split <;> rfl
      · rfl
    · rfl
  case getProfile =>
    apply ownersKept_of_places_eq
    simp only [handle, getProfile, profileAuthed]
    split
    · split
      · rfl
      · split <;> rfl
    · rfl
  case postLogout => exact ownersKept_refl s
  case postUploadByLink => exact ownersKept_refl s
  case postUpload => exact ownersKept_refl s
  case postPlaces =>
    simp only [handle, postPlaces, postPlacesAuthed, Place.create]
    split
    · exact ownersKept_refl s
    · split
      · rename_i heq
        split at heq
        · simp only [Option.some.injEq, Prod.mk.injEq] at heq
          rw [← heq.1]
          exact ownersKept_append s _
        · cases heq
      · exact ownersKept_refl s
  case getUserPlaces =>
    apply ownersKept_of_places_eq
    simp only [handle, getUserPlaces, userPlacesAuthed]
    split
    · rfl
    · split <;> rfl
  case getPlaceById =>
    apply ownersKept_of_places_eq
    simp only [handle, getPlaceById]
    split <;> rfl
  case putPlaces =>
    simp only [handle, putPlaces, putPlacesAuthed, Place.save]
    split
    · exact ownersKept_refl s
    · split
      · rename_i placeDoc hfind
        split
        · split
          · split
            · rename_i heq
              split at heq
              · simp only [Option.some.injEq] at heq
                rw [← heq]
                apply ownersKept_replace
                intro q hq
                have hlk : ∃ n, Place.lookup s n = some placeDoc := by
                  simp only [Place.findById] at hfind
                  split at hfind
                  · rename_i n _
                    exact ⟨n, by simpa using hfind⟩
                  · simp at hfind
                  · simp at hfind
                obtain ⟨n, hn⟩ := hlk
                have hid : placeDoc._id = n := lookup_id hn
                have hq' : Place.lookup s placeDoc._id = some q := hq
                rw [hid, hn] at hq'
                simp only [Option.some.injEq] at hq'
                rw [← hq']
                rfl
              · cases heq
            · exact ownersKept_refl s
          · exact ownersKept_refl s
        · exact ownersKept_refl s
      · exact ownersKept_refl s
  case getPlaces => exact ownersKept_refl s
  case getBookings =>
    apply ownersKept_of_places_eq
    simp only [handle, getBookings, getBookingsAuthed]
    split <;> rfl
  case postBookings =>
    apply ownersKept_of_places_eq
    simp only [handle, postBookings, postBookingsAuthed, Booking.create]
    split
    · rfl
    · split
      · rename_i heq
        split at heq
        · simp only [Option.some.injEq, Prod.mk.injEq] at heq
          rw [← heq.1]
        · cases heq
      · rfl

theorem run_ownersKept (env : Env) (reqs : List (Endpoint × Request)) :
    ∀ s : Store, OwnersKept s (run env s reqs) := by
  induction reqs with
  | nil => intro s; exact ownersKept_refl s
  | cons r rest ih =>
    intro s
    obtain ⟨ep, req⟩ := r
    exact ownersKept_trans (handle_ownersKept env s ep req) (ih _)

/-- C8. Over every sequence of requests from any store, a place that is stored keeps
its owner (a successful `PUT /places` included, whatever its body holds), and a
place created by `POST /places` under the identity `A` has owner `A` in every store
reached afterwards. -/
theorem place_owner_immutable (env : Env) (s : Store) (reqs : List (Endpoint × Request)) :
    (∀ i p, Place.lookup s i = some p →
      ∃ p', Place.lookup (run env s reqs) i = some p' ∧ p'.owner = p.owner) ∧
    (∀ (req : Request) (A : Claims) (p : PlaceDoc), jwtVerify env req.token = some A →
      (postPlaces env s req).outcome = .responded 200 (.place p) none →
      ∃ p', Place.lookup (run env (postPlaces env s req).store reqs) p._id = some p' ∧
        p'.owner = some A.id) := by
  refine ⟨run_ownersKept env reqs s, ?_⟩
  intro req A p htok hok
  have hcre : p.owner = some A.id ∧ (postPlaces env s req).store.places = s.places ++ [p] ∧
      p._id = freshId (s.places.map (·._id)) := by
    simp only [postPlaces, htok, postPlacesAuthed, Place.create] at hok ⊢
    split at hok
    · rename_i s' d heq
      split at heq
      · simp only [Option.some.injEq, Prod.mk.injEq] at heq
        obtain ⟨hs, hd⟩ := heq
        simp only [Outcome.responded.injEq, RespBody.place.injEq, and_true, true_and] at hok
        subst hok
        subst hs
        refine ⟨?_, ?_, ?_⟩
        · rw [← hd]; rfl
        · rw [← hd]
        · rw [← hd]; rfl
      · cases heq
    · simp at hok
  obtain ⟨hown, hplaces, hid⟩ := hcre
  have hnone : s.places.find? (fun q => q._id == p._id) = none := by
    rw [List.find?_eq_none]
    intro q hq
    have := lt_freshId (s.places.map (·._id)) q._id (List.mem_map_of_mem (·._id) hq)
    rw [← hid] at this
    simpa using Nat.ne_of_lt this
  have hlook : Place.lookup (postPlaces env s req).store p._id = some p := by
    simp [Place.lookup, hplaces, List.find?_append, hnone]
  obtain ⟨p', hp', ho⟩ := run_ownersKept env reqs _ p._id p hlook
  exact ⟨p', hp', ho.trans hown⟩

theorem place_owner_immutable_witness :
    Place.lookup exStore 1 = some cabin ∧
    (handle exEnv exStore .putPlaces exPutReq).outcome = .responded 200 (.text "ok") none ∧
    (∃ p', Place.lookup (run exEnv exStore [(.putPlaces, exPutReq), (.getPlaces, exPutReq)]) 1
        = some p' ∧ p'.owner = cabin.owner) ∧
    jwtVerify exEnv exCreateReq.token = some ⟨.str "ann@x.com", 1⟩ ∧
    (∃ p, (postPlaces exEnv exStore exCreateReq).outcome = .responded 200 (.place p) none ∧
      ∃ p', Place.lookup (run exEnv (postPlaces exEnv exStore exCreateReq).store
          [(.putPlaces, exPutReq), (.getPlaces, exPutReq)]) p._id = some p' ∧
        p'.owner = some 1) :=
  ⟨by decide, by decide,
    (place_owner_immutable exEnv exStore [(.putPlaces, exPutReq), (.getPlaces, exPutReq)]).1 1
      cabin (by decide),
    by decide,
    ⟨PlaceDoc.ofFields 2 [("owner", .oid 1), ("title", .str "Hut")], by decide,
      (place_owner_immutable exEnv exStore [(.putPlaces, exPutReq), (.getPlaces, exPutReq)]).2
        exCreateReq ⟨.str "ann@x.com", 1⟩ _ (by decide) (by decide)⟩⟩


/-! ### Unique ids are an invariant of the store -/

theorem nodup_append_fresh (ids : List ObjectId) (h : ids.Nodup) :
    (ids ++ [freshId ids]).Nodup := by
  rw [List.nodup_append]
  refine ⟨h, List.nodup_singleton _, ?_⟩
  intro x hx hx'
  have hlt := lt_freshId ids x hx
  have heq : x = freshId ids := by simpa using hx'
  rw [← heq] at hlt
  exact Nat.lt_irrefl x hlt

theorem map_id_replaceById (doc : PlaceDoc) (l : List PlaceDoc) :
    (replaceById doc l).map (·._id) = l.map (·._id) := by
  induction l with
  | nil => rfl
  | cons p ps ih =>
    by_cases h : p._id = doc._id
    · simp [replaceById, h]
    · have e : (p._id == doc._id) = false := by simpa using h
      simp [replaceById, e, ih]

theorem emptyStore_uniqueIds : emptyStore.UniqueIds := by
  simp [Store.UniqueIds, emptyStore]

/-- One request keeps the ids of each collection distinct. -/
theorem handle_uniqueIds (env : Env) (s : Store) (ep : Endpoint) (req : Request)
    (h : s.UniqueIds) : (handle env s ep req).store.UniqueIds := by
  obtain ⟨hu, hp, hb⟩ := h
  cases ep
  case postTest => exact ⟨hu, hp, hb⟩
  case postRegister =>
    simp only [handle, postRegister, User.create]
    split
    · split
      · rename_i heq
        split at heq
        · simp only [Option.some.injEq, Prod.mk.injEq] at heq
          rw [← heq.1]
          refine ⟨?_, hp, hb⟩
          simpa using nodup_append_fresh _ hu
        · cases heq
      · exact ⟨hu, hp, hb⟩
    · exact ⟨hu, hp, hb⟩
  case postLogin =>
    simp only [handle, postLogin]
    split
    · split
      · split <;> exact ⟨hu, hp, hb⟩
      · exact ⟨hu, hp, hb⟩
    · exact ⟨hu, hp, hb⟩
  case getProfile =>
    simp only [handle, getProfile, profileAuthed]
    split
    · split
      · exact ⟨hu, hp, hb⟩
      · split <;> exact ⟨hu, hp, hb⟩
    · exact ⟨hu, hp, hb⟩
  case postLogout => exact ⟨hu, hp, hb⟩
  case postUploadByLink => exact ⟨hu, hp, hb⟩
  case postUpload => exact ⟨hu, hp, hb⟩
  case postPlaces =>
    simp only [handle, postPlaces, postPlacesAuthed, Place.create]
    split
    · exact ⟨hu, hp, hb⟩
    · split
      · rename_i heq
        split at heq
        · simp only [Option.some.injEq, Prod.mk.injEq] at heq
          rw [← heq.1]
          refine ⟨hu, ?_, hb⟩
          simpa [PlaceDoc.ofFields] using nodup_append_fresh _ hp
        · cases heq
      · exact ⟨hu, hp, hb⟩
  case getUserPlaces =>
    simp only [handle, getUserPlaces, userPlacesAuthed]
    split
    · exact ⟨hu, hp, hb⟩
    · split <;> exact ⟨hu, hp, hb⟩
  case getPlaceById =>
    simp only [handle, getPlaceById]
    split <;> exact ⟨hu, hp, hb⟩
  case putPlaces =>
    simp only [handle, putPlaces, putPlacesAuthed, Place.save]
    split
    · exact ⟨hu, hp, hb⟩
    · split
      · split
        · split
          · split
            · rename_i heq
              split at heq
              · simp only [Option.some.injEq] at heq
                rw [← heq]
                refine ⟨hu, ?_, hb⟩
                simpa [map_id_replaceById] using hp
              · cases heq
            · exact ⟨hu, hp, hb⟩
          · exact ⟨hu, hp, hb⟩
        · exact ⟨hu, hp, hb⟩
      · exact ⟨hu, hp, hb⟩
  case getPlaces => exact ⟨hu, hp, hb⟩
  case getBookings =>
    simp only [handle, getBookings, getBookingsAuthed]
    split <;> exact ⟨hu, hp, hb⟩
  case postBookings =>
    simp only [handle, postBookings, postBookingsAuthed, Booking.create]
    split
    · exact ⟨hu, hp, hb⟩
    · split
      · rename_i heq
        split at heq
        · simp only [Option.some.injEq, Prod.mk.injEq] at heq
          rw [← heq.1]
          refine ⟨hu, hp, ?_⟩
          simpa [BookingDoc.ofFields] using nodup_append_fresh _ hb
        · cases heq
      · exact ⟨hu, hp, hb⟩

/-- Every store reached from one with distinct ids has distinct ids. -/
theorem run_uniqueIds (env : Env) (reqs : List (Endpoint × Request)) :
    ∀ s : Store, s.UniqueIds → (run env s reqs).UniqueIds := by
  induction reqs with
  | nil => intro s h; exact h
  | cons r rest ih =>
    intro s h
    obtain ⟨ep, req⟩ := r
    exact ih _ (handle_uniqueIds env s ep req h)

end RoomBooking
